import Mathlib

/-!
# Verification of the H5 dashboard core (`src/app.py`)

Shallow embedding of the core logic of `src/app.py`: reference-curve
densification (`generate_reference_display`), the session-scoped blank-info
range allocator (`calculate_coil_ranges` / `generate_coil_blank_info`), the
row-navigation handlers (`handle_row_selection`,
`handle_fullscreen_navigation`, `update_coil_and_reload`), the per-tab row
bound (`update_max_row`), and the reference-resolution fallback chain inside
`load_data_from_h5_dynamic`.

Numeric arrays are embedded as `List ℚ` (exact arithmetic in place of the
floating point of the source), 2D arrays as `List (List ℚ)`, and the mutable
global dictionary `COIL_BLANK_INFO_RANGES` as an association list in
insertion order (Python dictionaries preserve insertion order).
-/

/-- One densification stream of `generate_reference_display`
(`src/app.py` lines 417-438).  The source loop runs `i` over
`range(len(ref_x) - 1)`, appending the original point `ref_x[i]` and then the
midpoint `(ref_x[i] + ref_x[i+1]) / 2`, and finally appends `ref_x[-1]`.
The loop runs in lockstep over `ref_x` and `ref_z`; `densify` is that loop
for a single coordinate array.  (The source indexes `ref_x[-1]`, so it is
only ever run on nonempty arrays; on `[]` we return `[]` like the
`ref_x is None` guard does.) -/
def densify : List ℚ → List ℚ
  | [] => []
  | [a] => [a]
  | a :: b :: rest => a :: (a + b) / 2 :: densify (b :: rest)

/-- The `is_midpoint` mask built by the same loop of
`generate_reference_display`: `False` for each original point, `True` for
each interpolated midpoint, `False` for the final appended point. -/
def densifyMask : List ℚ → List Bool
  | [] => []
  | [_] => [false]
  | _ :: b :: rest => false :: true :: densifyMask (b :: rest)

/-- `generate_reference_display` (`src/app.py` lines 417-438): returns
`(display_x, display_z, is_midpoint)`.  Both coordinate streams are densified
by the same loop; the mask is driven by the `ref_x` iteration. -/
def generate_reference_display (ref_x ref_z : List ℚ) :
    List ℚ × List ℚ × List Bool :=
  (densify ref_x, densify ref_z, densifyMask ref_x)

theorem densify_length (l : List ℚ) (h : l ≠ []) :
    (densify l).length = 2 * l.length - 1 := by
  induction l using densify.induct with
  | case1 => simp at h
  | case2 a => simp [densify]
  | case3 a b rest ih =>
    have hih := ih (by simp)
    simp only [densify, List.length_cons] at hih ⊢
    omega

theorem densifyMask_length (l : List ℚ) (h : l ≠ []) :
    (densifyMask l).length = 2 * l.length - 1 := by
  induction l using densifyMask.induct with
  | case1 => simp at h
  | case2 a => simp [densifyMask]
  | case3 a b rest ih =>
    have hih := ih (by simp)
    simp only [densifyMask, List.length_cons] at hih ⊢
    omega

theorem densify_get_even (l : List ℚ) (k : ℕ) (hk : k < l.length) :
    (densify l).get? (2 * k) = l.get? k := by
  induction l using densify.induct generalizing k with
  | case1 => simp at hk
  | case2 a =>
    simp only [List.length_singleton] at hk
    interval_cases k
    simp [densify]
  | case3 a b rest ih =>
    match k with
    | 0 => simp [densify]
    | j + 1 =>
      have hj : j < (b :: rest).length := by
        simp only [List.length_cons] at hk ⊢; omega
      have h2 : 2 * (j + 1) = (2 * j) + 1 + 1 := by omega
      simp only [densify, h2, List.get?_cons_succ]
      exact ih j hj

theorem densify_get_odd (l : List ℚ) (k : ℕ) (a b : ℚ)
    (ha : l.get? k = some a) (hb : l.get? (k + 1) = some b) :
    (densify l).get? (2 * k + 1) = some ((a + b) / 2) := by
  induction l using densify.induct generalizing k with
  | case1 => simp at ha
  | case2 x =>
    match k with
    | 0 => simp at hb
    | j + 1 => simp at hb
  | case3 x y rest ih =>
    match k with
    | 0 =>
      simp only [List.get?_cons_zero] at ha
      simp only [List.get?_cons_succ, List.get?_cons_zero] at hb
      cases ha; cases hb
      simp [densify]
    | j + 1 =>
      simp only [List.get?_cons_succ] at ha hb
      have h2 : 2 * (j + 1) + 1 = (2 * j + 1) + 1 + 1 := by omega
      simp only [densify, h2, List.get?_cons_succ]
      exact ih j ha hb

theorem densifyMask_get_even (l : List ℚ) (k : ℕ) (hk : k < l.length) :
    (densifyMask l).get? (2 * k) = some false := by
  induction l using densifyMask.induct generalizing k with
  | case1 => simp at hk
  | case2 a =>
    simp only [List.length_singleton] at hk
    interval_cases k
    simp [densifyMask]
  | case3 a b rest ih =>
    match k with
    | 0 => simp [densifyMask]
    | j + 1 =>
      have hj : j < (b :: rest).length := by
        simp only [List.length_cons] at hk ⊢; omega
      have h2 : 2 * (j + 1) = (2 * j) + 1 + 1 := by omega
      simp only [densifyMask, h2, List.get?_cons_succ]
      exact ih j hj

theorem densifyMask_get_odd (l : List ℚ) (k : ℕ) (hk : k + 1 < l.length) :
    (densifyMask l).get? (2 * k + 1) = some true := by
  induction l using densifyMask.induct generalizing k with
  | case1 => simp at hk
  | case2 a => simp only [List.length_singleton] at hk; omega
  | case3 a b rest ih =>
    match k with
    | 0 => simp [densifyMask]
    | j + 1 =>
      have hj : j + 1 < (b :: rest).length := by
        simp only [List.length_cons] at hk ⊢; omega
      have h2 : 2 * (j + 1) + 1 = (2 * j + 1) + 1 + 1 := by omega
      simp only [densifyMask, h2, List.get?_cons_succ]
      exact ih j hj

/-- `extract_coil_number` (`src/app.py` lines 213-215, likewise 393-395):
the decimal number formed by the digit characters of the coil name, `0` when
there are none. -/
def extract_coil_number (coil_name : String) : ℕ :=
  (String.mk (coil_name.data.filter Char.isDigit)).toNat?.getD 0

/-- One entry of the global `COIL_BLANK_INFO_RANGES` dictionary
(`src/app.py` lines 233-237 and 482-486): the keys `"start"`, `"end"`
(here `end_num`, after the local variable of the source) and `"count"`. -/
structure CoilRange where
  start : ℕ
  end_num : ℕ
  count : ℕ
deriving Repr, DecidableEq

/-- The `COIL_BLANK_INFO_RANGES` dictionary as an association list in
insertion order (Python dictionaries preserve insertion order). -/
abbrev RangeTable := List (String × CoilRange)

/-- Python dictionary assignment `d[k] = v` on an insertion-ordered
association list: overwrite in place when the key exists, append otherwise. -/
def dictInsert (t : RangeTable) (k : String) (v : CoilRange) : RangeTable :=
  if t.any (fun p => p.1 = k) then
    t.map (fun p => if p.1 = k then (k, v) else p)
  else t ++ [(k, v)]

/-- Python dictionary lookup / `in` test. -/
def dictFind? (t : RangeTable) (k : String) : Option CoilRange :=
  (t.find? (fun p => p.1 = k)).map Prod.snd

/-- `max([info["end"] for info in COIL_BLANK_INFO_RANGES.values()])`
(`src/app.py` line 476); `0` on an empty table (the source guards that case
separately). -/
def max_end (t : RangeTable) : ℕ :=
  t.foldr (fun p m => max p.2.end_num m) 0

/-- `np.arange(start_num, start_num + num_rows)` (`src/app.py` lines
469 and 488). -/
def arange (s : ℤ) (n : ℕ) : List ℤ :=
  (List.range n).map (fun k : ℕ => s + (k : ℤ))

/-- The allocation loop of `calculate_coil_ranges` (`src/app.py` lines
219-247): walks the sorted coils; `rows` is the probed row count of a coil
(the maximum `actual_x.shape[0]` over its loaded data types; `0` stands for
"no data found" or a load error, both of which the source skips without
allocating).  A coil with a positive row count receives the block
`[current_start, current_start + num_rows - 1]` and `current_start` advances
past it. -/
def calc_ranges_loop (rows : String → ℕ) :
    List String → ℕ → RangeTable → RangeTable
  | [], _, table => table
  | coil_name :: rest, current_start, table =>
    let num_rows := rows coil_name
    if 0 < num_rows then
      calc_ranges_loop rows rest (current_start + num_rows)
        (dictInsert table coil_name
          ⟨current_start, current_start + num_rows - 1, num_rows⟩)
    else
      calc_ranges_loop rows rest current_start table

/-- `calculate_coil_ranges` (`src/app.py` lines 200-249).  With an empty
coil list the early `return` leaves the table unchanged; otherwise the
function RESETS `COIL_BLANK_INFO_RANGES` to `{}` and refills it by walking
the coils sorted stably by `extract_coil_number` (Python `sorted` with a
key is a stable sort; `List.insertionSort` is its stable analogue),
starting at `1`. -/
def calculate_coil_ranges (rows : String → ℕ) (available_coils : List String)
    (table : RangeTable) : RangeTable :=
  if available_coils.isEmpty then table
  else
    calc_ranges_loop rows
      (available_coils.insertionSort
        (fun a b => extract_coil_number a ≤ extract_coil_number b))
      1 []

/-- `generate_coil_blank_info` (`src/app.py` lines 463-491).  Returns the
blank-info array for the coil together with the possibly extended range
table: a coil with a precomputed range reuses it unchanged; an unseen coil
is lazily allocated the block starting at `max_end + 1` (`1` on an empty
table) and recorded in the table. -/
def generate_coil_blank_info (table : RangeTable) (coil_name : String)
    (num_rows : ℕ) : List ℤ × RangeTable :=
  match dictFind? table coil_name with
  | some r => (arange r.start num_rows, table)
  | none =>
    let start_num := if table.isEmpty then 1 else max_end table + 1
    let end_num := start_num + num_rows - 1
    (arange start_num num_rows,
      dictInsert table coil_name ⟨start_num, end_num, num_rows⟩)

/-- One operation on the session-scoped range table: a file load
(`handle_h5_file_loading`, `src/app.py` lines 640-715, which calls
`calculate_coil_ranges` with the file's coil list), or a lazy blank-info
allocation for a selected coil (`generate_coil_blank_info`). -/
inductive SessionOp where
  | load (available_coils : List String) (rows : String → ℕ)
  | lazyAlloc (coil_name : String) (num_rows : ℕ)

def applyOp (table : RangeTable) : SessionOp → RangeTable
  | .load coils rows => calculate_coil_ranges rows coils table
  | .lazyAlloc coil_name num_rows =>
    (generate_coil_blank_info table coil_name num_rows).2

def applyOps (ops : List SessionOp) (table : RangeTable) : RangeTable :=
  ops.foldl applyOp table

/-- The reverse lookup of the jump-to-blank-info handler
(`src/app.py` lines 1701-1704): `np.where(blank_info_data == target)[0]`,
taking the first matching index. -/
def resolve_blank_info (blank_info : List ℤ) (target : ℤ) : Option ℕ :=
  blank_info.findIdx? (fun v => v == target)

theorem arange_succ (s : ℤ) (n : ℕ) :
    arange s (n + 1) = s :: arange (s + 1) n := by
  unfold arange
  rw [List.range_succ_eq_map]
  rw [List.map_cons, List.map_map]
  congr 1
  · simp
  · apply List.map_congr_left
    intro k _
    simp only [Function.comp_apply]
    push_cast
    ring

theorem arange_findIdx? (s t : ℤ) (n : ℕ) (i : ℕ) :
    (arange s n).findIdx? (fun v => v == t) i =
      if 0 ≤ t - s ∧ t - s < (n : ℤ) then some ((t - s).toNat + i) else none := by
  induction n generalizing s i with
  | zero =>
    rw [if_neg (by push_cast; omega)]
    simp [arange]
  | succ n ih =>
    rw [arange_succ, List.findIdx?_cons]
    by_cases hst : s = t
    · subst hst
      have hc : 0 ≤ s - s ∧ s - s < ((n + 1 : ℕ) : ℤ) := by push_cast; omega
      simp [hc]
    · have hbeq : (s == t) = false := by simp [hst]
      rw [hbeq, if_neg (by simp), ih]
      by_cases hc : 0 ≤ t - (s + 1) ∧ t - (s + 1) < (n : ℤ)
    
      · have hc' : 0 ≤ t - s ∧ t - s < ((n + 1 : ℕ) : ℤ) := by push_cast at hc ⊢; omega
        rw [if_pos hc, if_pos hc']
        have : (t - (s + 1)).toNat + (i + 1) = (t - s).toNat + i := by omega
        rw [this]
      · have hc' : ¬ (0 ≤ t - s ∧ t - s < ((n + 1 : ℕ) : ℤ)) := by
          push_cast at hc ⊢
          omega
        rw [if_neg hc, if_neg hc']

theorem arange_get? (s : ℤ) (n i : ℕ) (hi : i < n) :
    (arange s n).get? i = some (s + (i : ℤ)) := by
  unfold arange
  rw [List.get?_eq_getElem?, List.getElem?_map, List.getElem?_range hi]
  rfl

theorem resolve_arange (s : ℤ) (n i : ℕ) (hi : i < n) :
    resolve_blank_info (arange s n) (s + (i : ℤ)) = some i := by
  unfold resolve_blank_info
  rw [arange_findIdx?]
  have hi' : (i : ℤ) < (n : ℤ) := by exact_mod_cast hi
  have hc : 0 ≤ s + (i : ℤ) - s ∧ s + (i : ℤ) - s < (n : ℤ) := by omega
  rw [if_pos hc]
  congr 1
  omega

/-- **C4.** For every Dataset whose `blank_info` array was produced by
`generate_coil_blank_info` and every valid row index `i`, reverse-looking-up
the value `blank_info[i]` (first matching index, as the jump-to-blank-info
handler does) yields exactly `i`. -/
theorem C4_blank_info_round_trip (table : RangeTable) (coil_name : String)
    (num_rows : ℕ) (i : ℕ) (hi : i < num_rows) (v : ℤ)
    (hv : (generate_coil_blank_info table coil_name num_rows).1.get? i
      = some v) :
    resolve_blank_info (generate_coil_blank_info table coil_name num_rows).1 v
      = some i := by
  unfold generate_coil_blank_info at hv ⊢
  cases hfind : dictFind? table coil_name with
  | some r =>
    simp only [hfind] at hv ⊢
    rw [arange_get? _ _ _ hi] at hv
    cases hv
    exact resolve_arange _ _ _ hi
  | none =>
    simp only [hfind] at hv ⊢
    rw [arange_get? _ _ _ hi] at hv
    cases hv
    exact resolve_arange _ _ _ hi

/-- Witness for C4 at a concrete input: range allocated lazily from the
empty table starts at `1`, so `blank_info = [1, 2, 3]` and looking up the
value at row `0` returns row `0`. -/
theorem C4_blank_info_round_trip_witness :
    0 < 3 ∧
      (generate_coil_blank_info [] "coil 50" 3).1.get? 0 = some 1 ∧
      resolve_blank_info (generate_coil_blank_info [] "coil 50" 3).1 1
        = some 0 :=
  ⟨by decide, by rfl,
    C4_blank_info_round_trip [] "coil 50" 3 0 (by decide) 1 (by rfl)⟩

def tableKeys (t : RangeTable) : List String := t.map Prod.fst

/-- The ranges of `t`, in insertion (= allocation) order, tile the number
line contiguously starting at `s`: the first range starts at `s`, each range
satisfies `end_num + 1 = start + count`, and each subsequent range starts at
the previous end plus one. -/
def contiguousFrom : ℕ → RangeTable → Bool
  | _, [] => true
  | s, (_, r) :: rest =>
    (r.start == s) && (r.end_num + 1 == r.start + r.count) &&
      contiguousFrom (r.end_num + 1) rest

/-- Where the next allocation would start: one past the end of the last
range in the table, `s` for an empty table. -/
def finalStart : ℕ → RangeTable → ℕ
  | s, [] => s
  | _, (_, r) :: rest => finalStart (r.end_num + 1) rest

theorem dictInsert_of_not_mem (t : RangeTable) (k : String) (v : CoilRange)
    (h : ¬ k ∈ tableKeys t) : dictInsert t k v = t ++ [(k, v)] := by
  unfold dictInsert
  rw [if_neg]
  simp only [tableKeys, List.mem_map] at h
  simp only [List.any_eq_true, decide_eq_true_eq, not_exists, not_and]
  intro p hp hpk
  exact h ⟨p, hp, hpk⟩

theorem dictFind?_none_not_mem (t : RangeTable) (k : String)
    (h : dictFind? t k = none) : ¬ k ∈ tableKeys t := by
  unfold dictFind? at h
  intro hmem
  simp only [tableKeys, List.mem_map] at hmem
  obtain ⟨p, hp, hpk⟩ := hmem
  have hs : (t.find? (fun p => p.1 = k)).isSome := by
    apply List.find?_isSome.mpr
    exact ⟨p, hp, by simpa using hpk⟩
  rcases Option.isSome_iff_exists.mp hs with ⟨q, hq⟩
  rw [hq] at h
  simp at h

theorem finalStart_append (s : ℕ) (t1 t2 : RangeTable) :
    finalStart s (t1 ++ t2) = finalStart (finalStart s t1) t2 := by
  induction t1 generalizing s with
  | nil => simp [finalStart]
  | cons p rest ih =>
    simp only [List.cons_append, finalStart]
    exact ih _

theorem contiguousFrom_append (s : ℕ) (t : RangeTable) (c : String)
    (r : CoilRange) (h : contiguousFrom s t = true)
    (hstart : r.start = finalStart s t)
    (hend : r.end_num + 1 = r.start + r.count) :
    contiguousFrom s (t ++ [(c, r)]) = true := by
  induction t generalizing s with
  | nil =>
    simp only [finalStart] at hstart
    simp [contiguousFrom, hstart, hend]
  | cons p rest ih =>
    simp only [contiguousFrom, Bool.and_eq_true, beq_iff_eq] at h
    obtain ⟨⟨h1, h2⟩, h3⟩ := h
    simp only [List.cons_append, contiguousFrom, Bool.and_eq_true, beq_iff_eq]
    refine ⟨⟨h1, h2⟩, ?_⟩
    exact ih _ h3 hstart

theorem le_finalStart (s : ℕ) (t : RangeTable)
    (h : contiguousFrom s t = true) : s ≤ finalStart s t := by
  induction t generalizing s with
  | nil => simp [finalStart]
  | cons p rest ih =>
    simp only [contiguousFrom, Bool.and_eq_true, beq_iff_eq] at h
    obtain ⟨⟨h1, h2⟩, h3⟩ := h
    have := ih _ h3
    simp only [finalStart]
    omega

theorem max_end_eq_finalStart (s : ℕ) (t : RangeTable)
    (h : contiguousFrom s t = true) (hne : t ≠ []) :
    max_end t + 1 = finalStart s t := by
  induction t generalizing s with
  | nil => cases hne rfl
  | cons p rest ih =>
    simp only [contiguousFrom, Bool.and_eq_true, beq_iff_eq] at h
    obtain ⟨⟨h1, h2⟩, h3⟩ := h
    cases rest with
    | nil => simp [max_end, finalStart]
    | cons q rest2 =>
      have hih := ih _ h3 (by simp)
      have hle := le_finalStart _ _ h3
      simp only [max_end, List.foldr] at hih ⊢
      simp only [finalStart] at hih hle ⊢
      omega

theorem calc_ranges_loop_contiguous (rows : String → ℕ) (cs : List String) :
    ∀ (s : ℕ) (t : RangeTable), contiguousFrom 1 t = true →
      s = finalStart 1 t → cs.Nodup → (∀ c ∈ cs, ¬ c ∈ tableKeys t) →
      contiguousFrom 1 (calc_ranges_loop rows cs s t) = true := by
  induction cs with
  | nil =>
    intro s t hc _ _ _
    simpa [calc_ranges_loop] using hc
  | cons c rest ih =>
    intro s t hc hs hnd hdisj
    simp only [calc_ranges_loop]
    have hcnotin := (List.nodup_cons.mp hnd).1
    have hnd' := (List.nodup_cons.mp hnd).2
    by_cases h0 : 0 < rows c
    · rw [if_pos h0]
      have hcm : ¬ c ∈ tableKeys t := hdisj c (List.mem_cons_self c rest)
      rw [dictInsert_of_not_mem t c _ hcm]
      apply ih
      · refine contiguousFrom_append 1 t c _ hc (by simpa using hs) ?_
        show s + rows c - 1 + 1 = s + rows c
        omega
      · rw [finalStart_append]
        rw [← hs]
        simp only [finalStart]
        omega
      · exact hnd'
      · intro c' hc'
        have h1 := hdisj c' (List.mem_cons_of_mem _ hc')
        have h2 : c' ≠ c := fun he => hcnotin (he ▸ hc')
        simp only [tableKeys, List.map_append, List.mem_append, List.map_cons,
          List.map_nil, List.mem_singleton]
        push_neg
        exact ⟨by simpa [tableKeys] using h1, h2⟩
    · rw [if_neg h0]
      exact ih s t hc hs hnd'
        (fun c' hc' => hdisj c' (List.mem_cons_of_mem _ hc'))

theorem applyOp_contiguous (t : RangeTable) (op : SessionOp)
    (hc : contiguousFrom 1 t = true)
    (hnd : ∀ cs rows, op = SessionOp.load cs rows → cs.Nodup) :
    contiguousFrom 1 (applyOp t op) = true := by
  cases op with
  | load cs rows =>
    simp only [applyOp, calculate_coil_ranges]
    by_cases he : cs.isEmpty
    · rw [if_pos he]; exact hc
    · rw [if_neg he]
      apply calc_ranges_loop_contiguous
      · rfl
      · rfl
      · exact (List.perm_insertionSort _ cs).symm.nodup (hnd cs rows rfl)
      · intro c hcmem
        simp [tableKeys]
  | lazyAlloc c n =>
    simp only [applyOp, generate_coil_blank_info]
    cases hf : dictFind? t c with
    | some r =>
      exact hc
    | none =>
      by_cases ht : t.isEmpty
      · have ht' : t = [] := List.isEmpty_iff.mp ht
        subst ht'
        rw [dictInsert_of_not_mem _ _ _ (by simp [tableKeys])]
        simp only [List.isEmpty_nil, if_pos, List.nil_append]
        have he1 : 1 + n - 1 + 1 = 1 + n := by omega
        simp [contiguousFrom, he1]
        omega
      · have htne : t ≠ [] := fun he => ht (by simp [he])
        rw [if_neg ht]
        rw [dictInsert_of_not_mem _ _ _ (dictFind?_none_not_mem t c hf)]
        have hme := max_end_eq_finalStart 1 t hc htne
        refine contiguousFrom_append 1 t c _ hc (by simpa using hme) ?_
        show max_end t + 1 + n - 1 + 1 = max_end t + 1 + n
        omega

theorem applyOps_contiguous (ops : List SessionOp) :
    ∀ t : RangeTable, contiguousFrom 1 t = true →
      (∀ op ∈ ops, ∀ cs rows, op = SessionOp.load cs rows → cs.Nodup) →
      contiguousFrom 1 (applyOps ops t) = true := by
  induction ops with
  | nil =>
    intro t hc _
    simpa [applyOps] using hc
  | cons op rest ih =>
    intro t hc hnd
    simp only [applyOps, List.foldl_cons]
    exact ih _ (applyOp_contiguous t op hc (hnd op (List.mem_cons_self op rest)))
      (fun o ho => hnd o (List.mem_cons_of_mem _ ho))

theorem contiguousFrom_start_le (s : ℕ) (t : RangeTable)
    (h : contiguousFrom s t = true) : ∀ p ∈ t, s ≤ p.2.start := by
  induction t generalizing s with
  | nil =>
    intro p hp
    simp at hp
  | cons q rest ih =>
    intro p hp
    simp only [contiguousFrom, Bool.and_eq_true, beq_iff_eq] at h
    obtain ⟨⟨h1, h2⟩, h3⟩ := h
    rcases List.mem_cons.mp hp with rfl | hmem
    · omega
    · have := ih _ h3 p hmem
      omega

theorem contiguousFrom_pairwise (s : ℕ) (t : RangeTable)
    (h : contiguousFrom s t = true) :
    t.Pairwise (fun p q => p.2.end_num < q.2.start) := by
  induction t generalizing s with
  | nil => exact List.Pairwise.nil
  | cons q rest ih =>
    simp only [contiguousFrom, Bool.and_eq_true, beq_iff_eq] at h
    obtain ⟨⟨h1, h2⟩, h3⟩ := h
    refine List.Pairwise.cons ?_ (ih _ h3)
    intro p hp
    have := contiguousFrom_start_le _ _ h3 p hp
    omega

/-- **C3.** For every sequence of coil range allocations in a session —
batch computation over a duplicate-free coil list (`calculate_coil_ranges`)
or lazy allocation for an unseen coil (`generate_coil_blank_info`) — the
resulting CoilRanges are contiguous in allocation order (`contiguousFrom 1`:
the first allocated range starts at `1`, and each subsequent range starts at
the previous allocated range's end plus one) and pairwise disjoint. -/
theorem C3_session_ranges_disjoint_contiguous (ops : List SessionOp)
    (hnd : ∀ op ∈ ops, ∀ cs rows, op = SessionOp.load cs rows → cs.Nodup) :
    contiguousFrom 1 (applyOps ops []) = true ∧
      (applyOps ops []).Pairwise (fun p q => p.2.end_num < q.2.start) := by
  have h := applyOps_contiguous ops [] rfl hnd
  exact ⟨h, contiguousFrom_pairwise 1 _ h⟩

/-- Witness for C3: a file load over two coils (12 and 8 rows) followed by
a lazy allocation of a third coil with 4 rows. -/
theorem C3_session_ranges_disjoint_contiguous_witness :
    (∀ op ∈ [SessionOp.load ["coil 50", "coil 51"]
          (fun c => if c = "coil 50" then 12 else 8),
        SessionOp.lazyAlloc "coil 52" 4],
      ∀ cs rows, op = SessionOp.load cs rows → cs.Nodup) ∧
    (contiguousFrom 1 (applyOps [SessionOp.load ["coil 50", "coil 51"]
            (fun c => if c = "coil 50" then 12 else 8),
          SessionOp.lazyAlloc "coil 52" 4] []) = true ∧
      (applyOps [SessionOp.load ["coil 50", "coil 51"]
            (fun c => if c = "coil 50" then 12 else 8),
          SessionOp.lazyAlloc "coil 52" 4] []).Pairwise
        (fun p q => p.2.end_num < q.2.start)) := by
  have hnd : ∀ op ∈ [SessionOp.load ["coil 50", "coil 51"]
          (fun c => if c = "coil 50" then 12 else 8),
        SessionOp.lazyAlloc "coil 52" 4],
      ∀ cs rows, op = SessionOp.load cs rows → cs.Nodup := by
    intro op hop cs rows heq
    rcases List.mem_cons.mp hop with h | h
    · subst h
      cases heq
      decide
    · rcases List.mem_cons.mp h with h2 | h2
      · subst h2
        cases heq
      · simp at h2
  exact ⟨hnd, C3_session_ranges_disjoint_contiguous _ hnd⟩

/-- **C2 (counterexample).** The claim says a created CoilRange survives
every later operation unchanged.  It does not: a lazy allocation gives coil
`"a"` the range `[1, 2]`, and a subsequent file load (`calculate_coil_ranges`
with coil list `["b"]`) resets the table, after which coil `"a"` has no
range at all (and the numbers 1-2 now belong to `"b"`). -/
theorem C2_counterexample :
    dictFind? (applyOps [SessionOp.lazyAlloc "a" 2] []) "a"
        = some ⟨1, 2, 2⟩ ∧
      dictFind? (applyOps [SessionOp.lazyAlloc "a" 2,
          SessionOp.load ["b"] (fun c => if c = "b" then 3 else 0)] []) "a"
        = none := by
  exact ⟨rfl, rfl⟩

/-- **C2 (amended).** A CoilRange, once created, is left unchanged by every
*lazy* allocation (`generate_coil_blank_info`), whether for the same coil
(which reuses it) or for unseen coils (which only append); stability does
NOT extend across `calculate_coil_ranges`, which on every file load with a
nonempty coil list clears the table and recomputes all ranges from
scratch. -/
theorem C2_lazy_allocation_preserves_ranges (table : RangeTable)
    (coil_name : String) (r : CoilRange) (allocs : List (String × ℕ))
    (h : dictFind? table coil_name = some r) :
    dictFind? (allocs.foldl
        (fun t a => (generate_coil_blank_info t a.1 a.2).2) table) coil_name
      = some r := by
  induction allocs generalizing table with
  | nil => simpa using h
  | cons a rest ih =>
    simp only [List.foldl_cons]
    apply ih
    unfold generate_coil_blank_info
    cases hf : dictFind? table a.1 with
    | some _ => exact h
    | none =>
      dsimp only
      have hne : coil_name ≠ a.1 := by
        intro he
        rw [he, hf] at h
        cases h
      rw [dictInsert_of_not_mem _ _ _ (dictFind?_none_not_mem _ _ hf)]
      unfold dictFind? at h ⊢
      rw [List.find?_append]
      rcases Option.map_eq_some'.mp h with ⟨p, hp, hpr⟩
      rw [hp]
      simp [hpr]

/-- Witness for the amended C2: coil `"a"` keeps `[1, 2]` across a lazy
allocation for `"b"`. -/
theorem C2_lazy_allocation_preserves_ranges_witness :
    dictFind? [("a", ⟨1, 2, 2⟩)] "a" = some ⟨1, 2, 2⟩ ∧
      dictFind? ([("b", 3)].foldl
          (fun t a => (generate_coil_blank_info t a.1 a.2).2)
          [("a", ⟨1, 2, 2⟩)]) "a" = some ⟨1, 2, 2⟩ :=
  ⟨rfl, C2_lazy_allocation_preserves_ranges [("a", ⟨1, 2, 2⟩)] "a"
    ⟨1, 2, 2⟩ [("b", 3)] rfl⟩

/-- The C1 property of a densified display: length `2n-1` for all three
arrays, original point `k` at position `2k` with mask `false`, and the
componentwise arithmetic mean of points `k` and `k+1` at position `2k+1`
with mask `true`. -/
def ReferenceDensifiedCorrectly (ref_x ref_z : List ℚ) (n : ℕ) : Prop :=
  (generate_reference_display ref_x ref_z).1.length = 2 * n - 1 ∧
  (generate_reference_display ref_x ref_z).2.1.length = 2 * n - 1 ∧
  (generate_reference_display ref_x ref_z).2.2.length = 2 * n - 1 ∧
  (∀ k, k < n →
    (generate_reference_display ref_x ref_z).1.get? (2 * k) = ref_x.get? k ∧
    (generate_reference_display ref_x ref_z).2.1.get? (2 * k)
      = ref_z.get? k ∧
    (generate_reference_display ref_x ref_z).2.2.get? (2 * k)
      = some false) ∧
  (∀ k a b c d, k + 1 < n → ref_x.get? k = some a →
    ref_x.get? (k + 1) = some b → ref_z.get? k = some c →
    ref_z.get? (k + 1) = some d →
    (generate_reference_display ref_x ref_z).1.get? (2 * k + 1)
      = some ((a + b) / 2) ∧
    (generate_reference_display ref_x ref_z).2.1.get? (2 * k + 1)
      = some ((c + d) / 2) ∧
    (generate_reference_display ref_x ref_z).2.2.get? (2 * k + 1)
      = some true)

/-- **C1.** For every reference curve of length `n ≥ 2` (equal-length
`ref_x`/`ref_z`), `generate_reference_display` returns display arrays of
length `2n-1` with original point `k` at position `2k`, the componentwise
arithmetic mean of points `k` and `k+1` at position `2k+1`, and an
`is_midpoint` mask that is `false` at even and `true` at odd positions. -/
theorem C1_reference_densification (ref_x ref_z : List ℚ) (n : ℕ)
    (hx : ref_x.length = n) (hz : ref_z.length = n) (hn : 2 ≤ n) :
    ReferenceDensifiedCorrectly ref_x ref_z n := by
  have hxne : ref_x ≠ [] := by
    intro he; rw [he] at hx; simp at hx; omega
  have hzne : ref_z ≠ [] := by
    intro he; rw [he] at hz; simp at hz; omega
  refine ⟨?_, ?_, ?_, ?_, ?_⟩
  · rw [show (generate_reference_display ref_x ref_z).1 = densify ref_x
      from rfl, densify_length ref_x hxne, hx]
  · rw [show (generate_reference_display ref_x ref_z).2.1 = densify ref_z
      from rfl, densify_length ref_z hzne, hz]
  · rw [show (generate_reference_display ref_x ref_z).2.2
      = densifyMask ref_x from rfl, densifyMask_length ref_x hxne, hx]
  · intro k hk
    exact ⟨densify_get_even ref_x k (by omega),
      densify_get_even ref_z k (by omega),
      densifyMask_get_even ref_x k (by omega)⟩
  · intro k a b c d hk ha hb hc hd
    exact ⟨densify_get_odd ref_x k a b ha hb,
      densify_get_odd ref_z k c d hc hd,
      densifyMask_get_odd ref_x k (by omega)⟩

/-- Witness for C1 at the example of the spec: reference points
`[(0,0), (10,5), (20,0)]`. -/
theorem C1_reference_densification_witness :
    ([(0 : ℚ), 10, 20].length = 3) ∧ ([(0 : ℚ), 5, 0].length = 3) ∧ 2 ≤ 3 ∧
      ReferenceDensifiedCorrectly [0, 10, 20] [0, 5, 0] 3 :=
  ⟨rfl, rfl, by omega,
    C1_reference_densification [0, 10, 20] [0, 5, 0] 3 rfl rfl (by omega)⟩

/-- The navigation triggers of `handle_row_selection` that the spec claims
cover (`src/app.py` lines 1618-1749): the Previous/Next buttons, the
jump-to-blank-info button with its parsed input value (`none` when the
input is empty), and the auto-advance interval tick. -/
inductive RowTrigger where
  | jump_previous_button
  | jump_next_button
  | jump_to_row_button (jump_value : Option ℤ)
  | auto_advance_interval

/-- Lines 1740-1749 of `handle_row_selection`: clamp the candidate row into
`[0, max_row-1]` and return an update only when the row actually changed;
`none` is `dash.no_update` (the stored row, and all other state, keeps its
value). -/
def clamp_and_update (current_row max_row : ℕ) (new_row : ℤ) : Option ℕ :=
  let clamped := max 0 (min new_row ((max_row : ℤ) - 1))
  if clamped = (current_row : ℤ) then none else some clamped.toNat

/-- `handle_row_selection` (`src/app.py` lines 1635-1749).  `current_row`
and `max_row` are the parsed integers of lines 1650-1655 (`'-1'`/empty
parse to `0`); `auto_advance` is the `auto-advance-state == 'true'` test of
line 1734; `blank_info` is `data_store['blank_info']['data']`, `[]` when
absent.  Returns `some r` when the callback returns `str(r)` and `none`
for `dash.no_update`.  Line 1657: with no data (`max_row <= 0`) the
callback returns `"0"`. -/
def handle_row_selection (trigger : RowTrigger) (current_row max_row : ℕ)
    (auto_advance : Bool) (blank_info : List ℤ) : Option ℕ :=
  if max_row = 0 then some 0
  else
    match trigger with
    | .jump_previous_button =>
      clamp_and_update current_row max_row (max 0 ((current_row : ℤ) - 1))
    | .jump_next_button =>
      clamp_and_update current_row max_row
        (min ((max_row : ℤ) - 1) ((current_row : ℤ) + 1))
    | .jump_to_row_button none => none
    | .jump_to_row_button (some target) =>
      if blank_info.isEmpty then
        let new_row : ℤ := target - 1
        if 0 ≤ new_row ∧ new_row < (max_row : ℤ) then
          clamp_and_update current_row max_row new_row
        else none
      else
        match resolve_blank_info blank_info target with
        | some i =>
          if 0 ≤ (i : ℤ) ∧ (i : ℤ) < (max_row : ℤ) then
            clamp_and_update current_row max_row (i : ℤ)
          else none
        | none => none
    | .auto_advance_interval =>
      if auto_advance then
        clamp_and_update current_row max_row
          ((((current_row + 1) % max_row : ℕ)) : ℤ)
      else none

/-- The row displayed after the callback: `dash.no_update` (`none`) keeps
the current row. -/
def effective_row (current_row : ℕ) (result : Option ℕ) : ℕ :=
  result.getD current_row

/-- The two fullscreen navigation buttons
(`src/app.py` lines 2644-2672). -/
inductive FullscreenButton where
  | fullscreen_prev_row
  | fullscreen_next_row

/-- `handle_fullscreen_navigation` (`src/app.py` lines 2653-2672): with no
selected row (`current_row` unset or the `'-1'` sentinel) it is
`dash.no_update`; Previous returns `max(0, row-1)`, Next returns
`min(max_row-1, row+1)` (as the integer printed into the div, hence `ℤ`). -/
def handle_fullscreen_navigation (button : FullscreenButton)
    (current_row : Option ℕ) (max_row : ℕ) : Option ℤ :=
  match current_row with
  | none => none
  | some row =>
    match button with
    | .fullscreen_prev_row => some (max 0 ((row : ℤ) - 1))
    | .fullscreen_next_row => some (min ((max_row : ℤ) - 1) ((row : ℤ) + 1))

/-- The pieces of global state the coil/file-change path touches or that C6
claims it touches: the selected coil, the global `selected_row`, and the
auto-advance state (held by the `auto-advance-state` div, written only by
the checkbox callback at lines 2606-2616). -/
structure AppNavState where
  selected_coil : String
  selected_row : ℕ
  auto_advance : Bool
deriving Repr, DecidableEq

/-- `update_coil_and_reload` (`src/app.py` lines 2587-2603): on a truthy
coil value different from the current selection it sets the global
`selected_coil` and resets the global `selected_row` to `0` (line 2593; the
`handle_h5_file_loading` it then triggers sets `selected_row = 0` again at
line 667).  It never touches the auto-advance state. -/
def update_coil_and_reload (st : AppNavState) (coil_value : Option String) :
    AppNavState :=
  match coil_value with
  | none => st
  | some c =>
    if c ≠ "" ∧ c ≠ st.selected_coil then
      { st with selected_coil := c, selected_row := 0 }
    else st

/-- The navigation-state effect of `handle_h5_file_loading`
(`src/app.py` lines 649-667): the file's coils replace `available_coils`
(empty list when none found, with `selected_coil := ""`); a previously
selected coil not present in the file is replaced by the first coil; the
global `selected_row` is reset to `0` (line 667).  The auto-advance state
is not touched. -/
def handle_h5_file_loading_nav (st : AppNavState) (file_coils : List String) :
    AppNavState :=
  if file_coils.isEmpty then
    { st with selected_coil := "", selected_row := 0 }
  else
    { st with
        selected_coil :=
          if st.selected_coil ∈ file_coils then st.selected_coil
          else file_coils.headD "",
        selected_row := 0 }

/-- The tabs `update_max_row` can receive (`src/app.py` lines 1597-1615). -/
inductive DataTab where
  | screwdown
  | bending
  | profile
  | all_data
deriving Repr, DecidableEq

/-- The row-count view of the global `data_store` built by
`handle_h5_file_loading` (lines 692-704): for each data type the number of
measured rows (`actual_x.shape[0]`) when it loaded, `none` when it failed
and was stored as `{}`; plus the length of the stored `blank_info` array. -/
structure DataStoreRows where
  screwdown : Option ℕ
  bending : Option ℕ
  profile : Option ℕ
  blank_info_len : ℕ
deriving Repr, DecidableEq

/-- `update_max_row` (`src/app.py` lines 1597-1615): the `max-row` value
the navigation layer uses.  The `all_data` tab reads the `screwdown` entry
(lines 1605-1606); a tab whose entry lacks `actual_x` (stored as `{}` after
a failed load) yields `0`; otherwise the row count of THAT tab's own data
type. -/
def update_max_row (tab : DataTab) (ds : DataStoreRows) : ℕ :=
  match tab with
  | .all_data => ds.screwdown.getD 0
  | .screwdown => ds.screwdown.getD 0
  | .bending => ds.bending.getD 0
  | .profile => ds.profile.getD 0

/-- The effective-row-count and blank-info bookkeeping of
`handle_h5_file_loading` (`src/app.py` lines 677-704): `actual_num_rows`
is the maximum row count across loaded data types (lines 678-681), and the
stored `blank_info` is regenerated to exactly that length whenever the
loaded one disagrees (lines 684-690; `generate_coil_blank_info` always
returns `num_rows` values). -/
def build_data_store (sd bd pf : Option ℕ) (loaded_blank_len : ℕ) :
    DataStoreRows :=
  let actual_num_rows := max (max (sd.getD 0) (bd.getD 0)) (pf.getD 0)
  { screwdown := sd, bending := bd, profile := pf,
    blank_info_len :=
      if loaded_blank_len = actual_num_rows then loaded_blank_len
      else actual_num_rows }

theorem effective_clamp (current_row max_row : ℕ) (new_row : ℤ)
    (h0 : 0 ≤ new_row) (h1 : new_row < (max_row : ℤ)) :
    effective_row current_row (clamp_and_update current_row max_row new_row)
      = new_row.toNat := by
  unfold clamp_and_update effective_row
  dsimp only
  split_ifs with h
  · simp only [Option.getD_none]
    omega
  · simp only [Option.getD_some]
    omega

/-- The C5 property: Previous yields `max(0, row-1)`, Next yields
`min(max_row-1, row+1)`, both inside `[0, max_row-1]`; an auto-advance tick
with the flag on yields `(row+1) mod max_row` (so `0` from the last row)
and with the flag off leaves the row unchanged (`dash.no_update`); the
fullscreen Previous/Next buttons obey the same clamped formulas. -/
def NavigationBoundsOk (current_row max_row : ℕ) (auto_advance : Bool)
    (blank_info : List ℤ) : Prop :=
  (effective_row current_row (handle_row_selection .jump_previous_button
        current_row max_row auto_advance blank_info) = current_row - 1 ∧
      current_row - 1 < max_row) ∧
  (effective_row current_row (handle_row_selection .jump_next_button
        current_row max_row auto_advance blank_info)
        = min (max_row - 1) (current_row + 1) ∧
      min (max_row - 1) (current_row + 1) < max_row) ∧
  (auto_advance = true →
    effective_row current_row (handle_row_selection .auto_advance_interval
        current_row max_row auto_advance blank_info)
      = (current_row + 1) % max_row) ∧
  (auto_advance = false →
    handle_row_selection .auto_advance_interval current_row max_row
        auto_advance blank_info = none) ∧
  (auto_advance = true → current_row = max_row - 1 →
    effective_row current_row (handle_row_selection .auto_advance_interval
        current_row max_row auto_advance blank_info) = 0) ∧
  (∀ r : ℤ, handle_fullscreen_navigation .fullscreen_prev_row
        (some current_row) max_row = some r →
      r = ((current_row - 1 : ℕ) : ℤ) ∧ 0 ≤ r ∧ r < (max_row : ℤ)) ∧
  (∀ r : ℤ, handle_fullscreen_navigation .fullscreen_next_row
        (some current_row) max_row = some r →
      r = ((min (max_row - 1) (current_row + 1) : ℕ) : ℤ) ∧
        0 ≤ r ∧ r < (max_row : ℤ))

/-- **C5.** For every current row in `[0, max_row-1]` with `max_row > 0`:
Previous yields `max(0, row-1)` and Next yields `min(max_row-1, row+1)`,
never leaving `[0, max_row-1]`; an auto-advance tick with the flag enabled
yields `(row+1) mod max_row` (row `0` from the last row) and with the flag
disabled leaves the row unchanged. -/
theorem C5_navigation_bounds (current_row max_row : ℕ)
    (auto_advance : Bool) (blank_info : List ℤ)
    (hmax : 0 < max_row) (hcur : current_row < max_row) :
    NavigationBoundsOk current_row max_row auto_advance blank_info := by
  have hne : ¬ max_row = 0 := by omega
  have eprev : handle_row_selection .jump_previous_button current_row max_row
      auto_advance blank_info
      = clamp_and_update current_row max_row (max 0 ((current_row : ℤ) - 1)) := by
    simp [handle_row_selection, hne]
  have enext : handle_row_selection .jump_next_button current_row max_row
      auto_advance blank_info
      = clamp_and_update current_row max_row
        (min ((max_row : ℤ) - 1) ((current_row : ℤ) + 1)) := by
    simp [handle_row_selection, hne]
  have hmod : (current_row + 1) % max_row < max_row := Nat.mod_lt _ hmax
  have eauto : auto_advance = true →
      handle_row_selection .auto_advance_interval current_row max_row
        auto_advance blank_info
      = clamp_and_update current_row max_row
        ((((current_row + 1) % max_row : ℕ)) : ℤ) := by
    intro ha
    simp [handle_row_selection, hne, ha]
  refine ⟨⟨?_, by omega⟩, ⟨?_, by omega⟩, ?_, ?_, ?_, ?_, ?_⟩
  · rw [eprev, effective_clamp _ _ _ (by omega) (by omega)]
    omega
  · rw [enext, effective_clamp _ _ _ (by omega) (by omega)]
    omega
  · intro ha
    rw [eauto ha, effective_clamp _ _ _ (by omega) (by exact_mod_cast hmod)]
    omega
  · intro ha
    simp [handle_row_selection, hne, ha]
  · intro ha hlast
    rw [eauto ha, effective_clamp _ _ _ (by omega) (by exact_mod_cast hmod)]
    have h1 : current_row + 1 = max_row := by omega
    rw [h1, Nat.mod_self]
    omega
  · intro r hr
    simp only [handle_fullscreen_navigation, Option.some.injEq] at hr
    subst hr
    refine ⟨by omega, by omega, by omega⟩
  · intro r hr
    simp only [handle_fullscreen_navigation, Option.some.injEq] at hr
    subst hr
    refine ⟨by omega, by omega, by omega⟩

/-- Witness for C5 at `current_row = 2`, `max_row = 3`. -/
theorem C5_navigation_bounds_witness :
    0 < 3 ∧ 2 < 3 ∧ NavigationBoundsOk 2 3 true [] :=
  ⟨by omega, by omega, C5_navigation_bounds 2 3 true [] (by omega) (by omega)⟩

/-- The C7 property: with `blank_info` present, a jump request resolving to
first index `i < max_row` moves the row to `i`; an unresolved value, or a
match at an index outside `[0, max_row-1]`, returns `dash.no_update`
(`none`) — the callback's single output is untouched, so the navigation
state is left completely unchanged and no exception escapes. -/
def JumpToBlankInfoOk (current_row max_row : ℕ) (auto_advance : Bool)
    (blank_info : List ℤ) : Prop :=
  (∀ n i, resolve_blank_info blank_info n = some i →
    (i : ℤ) < (max_row : ℤ) →
    effective_row current_row (handle_row_selection
        (.jump_to_row_button (some n)) current_row max_row auto_advance
        blank_info) = i) ∧
  (∀ n, resolve_blank_info blank_info n = none →
    handle_row_selection (.jump_to_row_button (some n)) current_row max_row
      auto_advance blank_info = none) ∧
  (∀ n i, resolve_blank_info blank_info n = some i →
    ¬ (i : ℤ) < (max_row : ℤ) →
    handle_row_selection (.jump_to_row_button (some n)) current_row max_row
      auto_advance blank_info = none)

/-- **C7.** For every jump-to-blank-info request on a Dataset whose
`blank_info` is present: a value occurring in `blank_info` moves the row to
the first index at which it occurs (when that index is within
`[0, max_row-1]`); a missing value or an out-of-range match leaves the
state unchanged and signals not-found (`dash.no_update`) instead of
raising or partially updating. -/
theorem C7_jump_to_blank_info (current_row max_row : ℕ)
    (auto_advance : Bool) (blank_info : List ℤ)
    (hmax : 0 < max_row) (hbi : blank_info ≠ []) :
    JumpToBlankInfoOk current_row max_row auto_advance blank_info := by
  have hne : ¬ max_row = 0 := by omega
  have hbe : blank_info.isEmpty = false := by
    simpa [List.isEmpty_iff] using hbi
  refine ⟨?_, ?_, ?_⟩
  · intro n i hres hlt
    have e1 : handle_row_selection (.jump_to_row_button (some n)) current_row
        max_row auto_advance blank_info
        = clamp_and_update current_row max_row (i : ℤ) := by
      simp [handle_row_selection, hne, hbe, hres, hlt]
    rw [e1, effective_clamp _ _ _ (by omega) hlt]
    omega
  · intro n hres
    simp [handle_row_selection, hne, hbe, hres]
  · intro n i hres hlt
    simp [handle_row_selection, hne, hbe, hres, hlt]

/-- Witness for C7: `blank_info = [13, 14, 15]`, `max_row = 3`. -/
theorem C7_jump_to_blank_info_witness :
    0 < 3 ∧ ([13, 14, 15] : List ℤ) ≠ [] ∧
      JumpToBlankInfoOk 0 3 false [13, 14, 15] :=
  ⟨by omega, by decide,
    C7_jump_to_blank_info 0 3 false [13, 14, 15] (by omega) (by decide)⟩

/-- The C10 property: with no (or an empty) `blank_info` array, a jump
request with value `n` is treated as a one-based row index — row `n-1`
when `n-1` lies in `[0, max_row-1]`, `dash.no_update` otherwise. -/
def JumpFallbackOk (current_row max_row : ℕ) (auto_advance : Bool) : Prop :=
  (∀ n : ℤ, 0 ≤ n - 1 → n - 1 < (max_row : ℤ) →
    effective_row current_row (handle_row_selection
        (.jump_to_row_button (some n)) current_row max_row auto_advance [])
      = (n - 1).toNat) ∧
  (∀ n : ℤ, ¬ (0 ≤ n - 1 ∧ n - 1 < (max_row : ℤ)) →
    handle_row_selection (.jump_to_row_button (some n)) current_row max_row
      auto_advance [] = none)

/-- **C10.** For every jump-to-blank-info request with value `n` while the
active Dataset has no (or an empty) `blank_info` array, the handler falls
back to reading `n` as a one-based row index: it jumps to row `n-1` when
`n-1` lies in `[0, max_row-1]` and leaves the state unchanged otherwise. -/
theorem C10_jump_fallback (current_row max_row : ℕ) (auto_advance : Bool)
    (hmax : 0 < max_row) :
    JumpFallbackOk current_row max_row auto_advance := by
  have hne : ¬ max_row = 0 := by omega
  refine ⟨?_, ?_⟩
  · intro n h0 h1
    have e1 : handle_row_selection (.jump_to_row_button (some n)) current_row
        max_row auto_advance []
        = clamp_and_update current_row max_row (n - 1) := by
      simp only [handle_row_selection, if_neg hne, List.isEmpty_nil, if_pos]
      rw [if_pos ⟨h0, h1⟩]
    rw [e1, effective_clamp _ _ _ h0 h1]
  · intro n hn
    simp only [handle_row_selection, if_neg hne, List.isEmpty_nil, if_pos]
    rw [if_neg hn]

/-- Witness for C10: `n = 2`, `max_row = 3`. -/
theorem C10_jump_fallback_witness :
    0 < 3 ∧ JumpFallbackOk 0 3 false :=
  ⟨by omega, C10_jump_fallback 0 3 false (by omega)⟩

/-- **C6 (counterexample).** The claim says a coil switch or file change
leaves the navigation in the Unselected sentinel state with
`auto_advance = false`.  It does not: switching from `"coil 50"` to
`"coil 51"` with auto-advance enabled sets the global selected row to the
concrete index `0` (not the unset sentinel) and leaves auto-advance
enabled; the file-loading path behaves the same. -/
theorem C6_counterexample :
    (update_coil_and_reload ⟨"coil 50", 5, true⟩
        (some "coil 51")).selected_row = 0 ∧
    (update_coil_and_reload ⟨"coil 50", 5, true⟩
        (some "coil 51")).auto_advance = true ∧
    ¬ (update_coil_and_reload ⟨"coil 50", 5, true⟩
        (some "coil 51")).auto_advance = false ∧
    (handle_h5_file_loading_nav ⟨"coil 50", 5, true⟩
        ["coil 51"]).selected_row = 0 ∧
    (handle_h5_file_loading_nav ⟨"coil 50", 5, true⟩
        ["coil 51"]).auto_advance = true := by
  refine ⟨rfl, rfl, ?_, rfl, rfl⟩
  intro h
  simp [update_coil_and_reload] at h

/-- **C6 (amended).** A coil switch (and the file reload it triggers)
resets the global selected row to the concrete index `0` — not to an unset
sentinel — and leaves the auto-advance state untouched, so auto-advance
can keep running against the new dataset. -/
theorem C6_coil_change_resets_row_to_zero (st : AppNavState)
    (c : String) (hne : c ≠ "") (hdiff : c ≠ st.selected_coil)
    (file_coils : List String) :
    (update_coil_and_reload st (some c)).selected_row = 0 ∧
    (update_coil_and_reload st (some c)).selected_coil = c ∧
    (update_coil_and_reload st (some c)).auto_advance = st.auto_advance ∧
    (handle_h5_file_loading_nav st file_coils).selected_row = 0 ∧
    (handle_h5_file_loading_nav st file_coils).auto_advance
      = st.auto_advance := by
  have h1 : update_coil_and_reload st (some c)
      = { st with selected_coil := c, selected_row := 0 } := by
    simp [update_coil_and_reload, hne, hdiff]
  refine ⟨by rw [h1], by rw [h1], by rw [h1], ?_, ?_⟩ <;>
    · unfold handle_h5_file_loading_nav
      split_ifs <;> rfl

/-- Witness for the amended C6. -/
theorem C6_coil_change_resets_row_to_zero_witness :
    ("coil 51" : String) ≠ "" ∧
    ("coil 51" : String) ≠ (⟨"coil 50", 5, true⟩ : AppNavState).selected_coil ∧
    ((update_coil_and_reload ⟨"coil 50", 5, true⟩
          (some "coil 51")).selected_row = 0 ∧
      (update_coil_and_reload ⟨"coil 50", 5, true⟩
          (some "coil 51")).selected_coil = "coil 51" ∧
      (update_coil_and_reload ⟨"coil 50", 5, true⟩
          (some "coil 51")).auto_advance
        = (⟨"coil 50", 5, true⟩ : AppNavState).auto_advance ∧
      (handle_h5_file_loading_nav ⟨"coil 50", 5, true⟩
          ["coil 51"]).selected_row = 0 ∧
      (handle_h5_file_loading_nav ⟨"coil 50", 5, true⟩
          ["coil 51"]).auto_advance
        = (⟨"coil 50", 5, true⟩ : AppNavState).auto_advance) :=
  ⟨by decide, by decide,
    C6_coil_change_resets_row_to_zero ⟨"coil 50", 5, true⟩ "coil 51"
      (by decide) (by decide) ["coil 51"]⟩

/-- **C9 (counterexample).** The claim says `blank_info.length` equals the
`max_row` the navigation layer uses, with `max_row` the maximum row count
across loaded data types, in particular when the data types differ in row
count.  It does not: with screwdown = 2 rows and bending = 3 rows the
stored `blank_info` has length 3, but `update_max_row` on the screwdown
tab (also the `all_data` tab) reports `max_row = 2`. -/
theorem C9_counterexample :
    (build_data_store (some 2) (some 3) none 0).blank_info_len = 3 ∧
    update_max_row .screwdown (build_data_store (some 2) (some 3) none 0)
      = 2 ∧
    ¬ update_max_row .screwdown (build_data_store (some 2) (some 3) none 0)
      = (build_data_store (some 2) (some 3) none 0).blank_info_len := by
  refine ⟨rfl, rfl, ?_⟩
  intro h
  simp [update_max_row, build_data_store] at h

/-- **C9 (amended).** The stored `blank_info` always has length equal to
the effective row count (the maximum row count across loaded data types),
but the `max_row` the navigation layer uses (`update_max_row`) is the row
count of the ACTIVE TAB's own data type (screwdown for the all-data tab);
it is therefore at most `blank_info.length`, with equality exactly when
that data type attains the maximum. -/
theorem C9_blank_info_length_is_effective_rows (sd bd pf : Option ℕ)
    (loaded_blank_len : ℕ) (tab : DataTab) :
    (build_data_store sd bd pf loaded_blank_len).blank_info_len
      = max (max (sd.getD 0) (bd.getD 0)) (pf.getD 0) ∧
    update_max_row tab (build_data_store sd bd pf loaded_blank_len)
      ≤ (build_data_store sd bd pf loaded_blank_len).blank_info_len := by
  constructor
  · unfold build_data_store
    dsimp only
    split_ifs with h
    · exact h
    · rfl
  · cases tab <;>
      · unfold update_max_row build_data_store
        dsimp only
        split_ifs with h <;> omega

/-- One H5 data group for a data type, as `load_data_from_h5_dynamic`
reads it (`src/app.py` lines 526-602): the group's attribute set, the
optional sibling `ref_x`/`ref_z` child datasets, and the 2D actual arrays
(already reshaped to 2D by lines 533-536). -/
structure DataGroup where
  attrs : List (String × List ℚ)
  ref_x_ds : Option (List ℚ)
  ref_z_ds : Option (List ℚ)
  actual_x : List (List ℚ)
  actual_z : List (List ℚ)

/-- The X-reference attribute name variants (`src/app.py` lines 542-547),
tried in order. -/
def ref_attr_names (data_type : String) : List String :=
  [data_type.capitalize ++ " ref x", data_type ++ " ref x", "ref_x",
    "reference_x"]

/-- The Z-reference attribute name variants (`src/app.py` lines 554-559),
tried in order. -/
def ref_attr_names_z (data_type : String) : List String :=
  [data_type.capitalize ++ " ref z", data_type ++ " ref z", "ref_z",
    "reference_z"]

/-- The attribute scan of `src/app.py` lines 549-552 / 561-564: try each
candidate name in order, first present name wins. -/
def lookup_ref_attr (attrs : List (String × List ℚ)) (names : List String) :
    Option (List ℚ) :=
  names.findSome? (fun n => (attrs.find? (fun p => p.1 = n)).map Prod.snd)

/-- `numpy` `.size` of a 2D array: the total element count. -/
def npSize (a : List (List ℚ)) : ℕ :=
  (a.map List.length).sum

/-- `np.mean(a, axis=0)` on a rectangular 2D array: the column-wise
arithmetic mean (`src/app.py` lines 575 and 579; `actual_x`/`actual_z` are
always 2D there after the reshape of lines 533-536). -/
def colMean (a : List (List ℚ)) : List ℚ :=
  (List.range (a.headD []).length).map
    (fun j => (a.map (fun row => row.getD j 0)).sum / (a.length : ℚ))

/-- The reference-resolution chain of `load_data_from_h5_dynamic`
(`src/app.py` lines 538-596) for one data group: (1) the attribute-name
variants, separately for X and Z; (2) when EITHER array is still missing,
the sibling `ref_x`/`ref_z` datasets — the source assigns from each
existing dataset unconditionally inside this branch (lines 567-571), which
overwrites an attribute hit; (3) per-array synthetic fallback, the
column-wise mean of the nonempty actual array (lines 574-580); finally the
consistency check of line 583: `none` (the data type is excluded) when
either reference is still missing or the lengths differ. -/
def resolve_refs (data_type : String) (g : DataGroup) :
    Option (List ℚ × List ℚ) :=
  let ref_x0 := lookup_ref_attr g.attrs (ref_attr_names data_type)
  let ref_z0 := lookup_ref_attr g.attrs (ref_attr_names_z data_type)
  let ref_x1 :=
    if ref_x0 = none ∨ ref_z0 = none then
      match g.ref_x_ds with
      | some d => some d
      | none => ref_x0
    else ref_x0
  let ref_z1 :=
    if ref_x0 = none ∨ ref_z0 = none then
      match g.ref_z_ds with
      | some d => some d
      | none => ref_z0
    else ref_z0
  let ref_x2 :=
    match ref_x1 with
    | some r => some r
    | none =>
      if 0 < npSize g.actual_x then some (colMean g.actual_x) else none
  let ref_z2 :=
    match ref_z1 with
    | some r => some r
    | none =>
      if 0 < npSize g.actual_z then some (colMean g.actual_z) else none
  match ref_x2, ref_z2 with
  | some rx, some rz =>
    if rx.length = rz.length then some (rx, rz) else none
  | _, _ => none

/-- Reference resolution exactly as the C8 claim words it: an ordered
fallback chain PER ARRAY in which the first success wins — attributes,
then the sibling dataset, then the synthetic column-wise mean.  (Kept for
comparison with `resolve_refs`, which is the source's behaviour.) -/
def resolve_refs_spec (data_type : String) (g : DataGroup) :
    Option (List ℚ × List ℚ) :=
  let ref_x := ((lookup_ref_attr g.attrs (ref_attr_names data_type)).orElse
    (fun _ => g.ref_x_ds)).orElse
    (fun _ => if 0 < npSize g.actual_x then some (colMean g.actual_x)
      else none)
  let ref_z := ((lookup_ref_attr g.attrs (ref_attr_names_z data_type)).orElse
    (fun _ => g.ref_z_ds)).orElse
    (fun _ => if 0 < npSize g.actual_z then some (colMean g.actual_z)
      else none)
  match ref_x, ref_z with
  | some rx, some rz =>
    if rx.length = rz.length then some (rx, rz) else none
  | _, _ => none

/-- The per-data-type loop of `load_data_from_h5_dynamic`
(`src/app.py` lines 526-602), restricted to reference resolution: data
types whose references cannot be resolved consistently are skipped
(`continue`, line 585), the others still load. -/
def load_data_types (groups : List (String × DataGroup)) :
    List (String × (List ℚ × List ℚ)) :=
  groups.filterMap (fun p => (resolve_refs p.1 p.2).map (fun r => (p.1, r)))

/-- **C8 (counterexample).** The claim says each reference array is
resolved by an ordered fallback chain where the first success wins.  It is
not: on a group whose attributes provide `ref_x = [1, 2]` but no Z
attribute, with sibling datasets `ref_x = [5, 6]` and `ref_z = [7, 8]`,
the source enters the dataset branch (because Z is missing) and overwrites
the attribute-resolved X with the dataset value, returning
`([5, 6], [7, 8])` where the claimed chain would return
`([1, 2], [7, 8])`. -/
theorem C8_counterexample :
    resolve_refs "screwdown"
        ⟨[("ref_x", [1, 2])], some [5, 6], some [7, 8], [], []⟩
      = some ([5, 6], [7, 8]) ∧
    resolve_refs_spec "screwdown"
        ⟨[("ref_x", [1, 2])], some [5, 6], some [7, 8], [], []⟩
      = some ([1, 2], [7, 8]) ∧
    ¬ resolve_refs "screwdown"
        ⟨[("ref_x", [1, 2])], some [5, 6], some [7, 8], [], []⟩
      = resolve_refs_spec "screwdown"
        ⟨[("ref_x", [1, 2])], some [5, 6], some [7, 8], [], []⟩ := by
  refine ⟨rfl, rfl, ?_⟩
  intro h
  rw [show resolve_refs "screwdown"
      ⟨[("ref_x", [1, 2])], some [5, 6], some [7, 8], [], []⟩
      = some ([5, 6], [7, 8]) from rfl] at h
  rw [show resolve_refs_spec "screwdown"
      ⟨[("ref_x", [1, 2])], some [5, 6], some [7, 8], [], []⟩
      = some ([1, 2], [7, 8]) from rfl] at h
  simp at h

/-- **C8 (amended).** The reference curves are resolved by the staged
fallback of the source: when the attribute scan resolves BOTH arrays (and
lengths match) the attribute values win and the datasets are ignored; when
EITHER array is missing after the attribute stage, each sibling dataset
that exists supplies its array — overwriting even an attribute-resolved
one; an array still missing after both stages falls back to the synthetic
column-wise mean of its nonempty actual array; and a data type whose
references end up missing or of unequal length is excluded while the other
data types still load. -/
theorem C8_reference_fallback_chain (data_type : String) (g : DataGroup) :
    (∀ rx rz, lookup_ref_attr g.attrs (ref_attr_names data_type) = some rx →
      lookup_ref_attr g.attrs (ref_attr_names_z data_type) = some rz →
      rx.length = rz.length → resolve_refs data_type g = some (rx, rz)) ∧
    (∀ dx dz, (lookup_ref_attr g.attrs (ref_attr_names data_type) = none ∨
        lookup_ref_attr g.attrs (ref_attr_names_z data_type) = none) →
      g.ref_x_ds = some dx → g.ref_z_ds = some dz → dx.length = dz.length →
      resolve_refs data_type g = some (dx, dz)) ∧
    (lookup_ref_attr g.attrs (ref_attr_names data_type) = none →
      lookup_ref_attr g.attrs (ref_attr_names_z data_type) = none →
      g.ref_x_ds = none → g.ref_z_ds = none → 0 < npSize g.actual_x →
      0 < npSize g.actual_z →
      (colMean g.actual_x).length = (colMean g.actual_z).length →
      resolve_refs data_type g
        = some (colMean g.actual_x, colMean g.actual_z)) ∧
    (∀ groups1 groups2, resolve_refs data_type g = none →
      load_data_types (groups1 ++ (data_type, g) :: groups2)
        = load_data_types groups1 ++ load_data_types groups2) := by
  refine ⟨?_, ?_, ?_, ?_⟩
  · intro rx rz hx hz hlen
    unfold resolve_refs
    rw [hx, hz]
    simp [hlen]
  · intro dx dz hor hdx hdz hlen
    unfold resolve_refs
    rw [hdx, hdz]
    rcases hor with h | h <;> rw [h] <;> simp [hlen]
  · intro hx hz hdx hdz hszx hszz hlen
    unfold resolve_refs
    rw [hx, hz, hdx, hdz]
    simp [hszx, hszz, hlen]
  · intro groups1 groups2 hnone
    unfold load_data_types
    rw [List.filterMap_append]
    congr 1
    rw [List.filterMap_cons]
    simp [hnone]

/-- Witness for the amended C8: both references resolved from attributes. -/
theorem C8_reference_fallback_chain_witness :
    lookup_ref_attr [("ref_x", [(1 : ℚ), 2]), ("ref_z", [3, 4])]
        (ref_attr_names "screwdown") = some [1, 2] ∧
    lookup_ref_attr [("ref_x", [(1 : ℚ), 2]), ("ref_z", [3, 4])]
        (ref_attr_names_z "screwdown") = some [3, 4] ∧
    ([(1 : ℚ), 2].length = [(3 : ℚ), 4].length) ∧
    resolve_refs "screwdown"
        ⟨[("ref_x", [1, 2]), ("ref_z", [3, 4])], none, none, [], []⟩
      = some ([1, 2], [3, 4]) :=
  ⟨rfl, rfl, rfl,
    (C8_reference_fallback_chain "screwdown"
        ⟨[("ref_x", [1, 2]), ("ref_z", [3, 4])], none, none, [], []⟩).1
      [1, 2] [3, 4] rfl rfl rfl⟩
